import Mathlib

/-!
Verification development for the dentist-api clinic backend
(appointment lifecycle, role-based access control, authentication).

The Go handlers in `internal/handlers/handler.go` and
`internal/handlers/auth_handler.go` are embedded shallowly:

* MongoDB ObjectIDs are modelled as `Nat` (`0` plays the zero ObjectID that
  `primitive.ObjectIDFromHex` yields when it fails and the error is ignored).
* Instants (`time.Time`) are modelled as `Int` seconds; parsing a
  `"2006-01-02"` date string yields the UTC midnight of that day, so a date
  query parameter is carried directly as that midnight instant.
* The outcome of fallible framework steps (JSON binding, RFC3339 parsing,
  ObjectID hex parsing) is carried as `Option`: `none` is the parse failure
  the Go code observes through a non-nil `err`.
* The Mongo collection is a Lean list; `Find` is filter-then-sort,
  `FindOne` is `List.find?` (first match), `UpdateOne` with a `$set`
  document rewrites the first matching element, `InsertOne` appends.
* Go slice `nil`-ness matters for JSON output (`cursor.All` into a nil
  slice leaves it nil when nothing matched, and a nil slice serializes as
  JSON `null`), so a decoded result set is `Option (List Appointment)` with
  `none` for the nil slice.
* Fire-and-forget SMS notification never influences a handler's stored
  state or its HTTP response, so it is not represented.
-/

namespace DentistApi

/-- MongoDB ObjectID, modelled as a natural number; `0` is the zero
ObjectID produced when hex parsing fails and the error is discarded. -/
abbrev ObjectId := Nat

/-- An absolute instant, in seconds (RFC3339 timestamps and parsed dates). -/
abbrev Time := Int

/-- `models.User` (src/unnamed/part_003, second model file). -/
structure User where
  id : ObjectId
  fullName : String
  email : String
  password : String
  role : String
  phone : String
deriving DecidableEq

/-- `models.Appointment` (src/unnamed/part_003). -/
structure Appointment where
  id : ObjectId
  patientID : ObjectId
  patientName : String
  startTime : Time
  endTime : Time
  service : String
  status : String
deriving DecidableEq

/-- The document store: the `users` and `appointments` collections. -/
structure Store where
  users : List User
  appointments : List Appointment
deriving DecidableEq

/-- The authenticated caller context placed on the gin context by
`AuthMiddleware` (`userID` hex claim and `userRole` claim).  `userID` is
the result of parsing the hex claim with `primitive.ObjectIDFromHex`:
`none` when the hex string does not parse. -/
structure Session where
  userID : Option ObjectId
  userRole : String
deriving DecidableEq

/-- `collection.UpdateOne(filter. _id = aid, $set ...)`: rewrite the first
document whose id matches; at most one document is updated. -/
def updateOneById (l : List Appointment) (aid : ObjectId)
    (g : Appointment → Appointment) : List Appointment :=
  match l with
  | [] => []
  | a :: rest => if a.id == aid then g a :: rest else a :: updateOneById rest aid g

/-- Insertion step of the sort used to model the `Find` sort option. -/
def insertLe (le : Appointment → Appointment → Bool) (a : Appointment) :
    List Appointment → List Appointment
  | [] => [a]
  | b :: rest => if le a b then a :: b :: rest else b :: insertLe le a rest

/-- Sorting of query results (`options.Find().SetSort(...)`). -/
def sortLe (le : Appointment → Appointment → Bool) :
    List Appointment → List Appointment
  | [] => []
  | a :: rest => insertLe le a (sortLe le rest)

/-- Ascending by `startTime` (`Value: 1`, used by `GetAppointments`). -/
def byStartAsc (a b : Appointment) : Bool := decide (a.startTime ≤ b.startTime)

/-- Descending by `startTime` (`Value: -1`, used by `GetAppointment`). -/
def byStartDesc (a b : Appointment) : Bool := decide (b.startTime ≤ a.startTime)

/-- The bson filter document both list handlers build: optional `$gte` and
`$lte` bounds on `startTime`, optional `status` equality, optional
`patientId` equality. -/
structure AptFilter where
  gteStart : Option Time
  lteStart : Option Time
  status : Option String
  patientId : Option ObjectId
deriving DecidableEq

/-- The empty filter `bson.M{}`. -/
def emptyFilter : AptFilter := ⟨none, none, none, none⟩

/-- Whether an appointment document satisfies the filter. -/
def AptFilter.matches (f : AptFilter) (a : Appointment) : Bool :=
  (match f.gteStart with | none => true | some t => decide (t ≤ a.startTime)) &&
  (match f.lteStart with | none => true | some t => decide (a.startTime ≤ t)) &&
  (match f.status with | none => true | some st => a.status == st) &&
  (match f.patientId with | none => true | some p => a.patientID == p)

/-- Query parameters common to both list handlers.  Outer `Option`:
`none` when `c.Query` returns the empty string.  Inner `Option` for the
date / id parameters: `none` when the value is present but fails to parse
(the handlers then silently skip that filter).  A parsed date is carried
as the UTC midnight instant of that day. -/
structure ListQuery where
  startDate : Option (Option Time)
  endDate : Option (Option Time)
  status : Option String
  patientId : Option (Option ObjectId)
deriving DecidableEq

/-- A request with no query parameters. -/
def noQuery : ListQuery := ⟨none, none, none, none⟩

/-- `23*time.Hour + 59*time.Minute` in seconds: the offset the handlers
add to a parsed end date "to include the entire end day". -/
def endOfDayOffset : Time := 23 * 3600 + 59 * 60

/-- The date-range and status filtering steps shared verbatim by
`GetAppointments` (handler.go lines 108-128) and `GetAppointment`
(lines 175-195): a parsed `startDate` installs a `$gte` bound at its
midnight, a parsed `endDate` installs a `$lte` bound at its midnight plus
`endOfDayOffset`, a non-empty `status` installs an equality filter. -/
def applyDateStatusFilters (q : ListQuery) (f0 : AptFilter) : AptFilter :=
  let f1 := match q.startDate with
    | some (some d) => ⟨some d, f0.lteStart, f0.status, f0.patientId⟩
    | _ => f0
  let f2 := match q.endDate with
    | some (some d) => ⟨f1.gteStart, some (d + endOfDayOffset), f1.status, f1.patientId⟩
    | _ => f1
  match q.status with
  | some st => ⟨f2.gteStart, f2.lteStart, some st, f2.patientId⟩
  | none => f2

/-- `collection.Find(filter, sortOption)`: all matching documents, sorted. -/
def Store.findAppointments (s : Store) (f : AptFilter)
    (le : Appointment → Appointment → Bool) : List Appointment :=
  sortLe le (s.appointments.filter f.matches)

/-- `cursor.All` decoding into `var appointments []models.Appointment`:
the slice starts nil and stays nil (`none`) when the cursor is empty; a
nil slice serializes as JSON `null`. -/
def cursorAll (l : List Appointment) : Option (List Appointment) :=
  if l.isEmpty then none else some l

/-- HTTP outcome of a list handler.  `okRes none` is a 200 whose body is
the JSON `null` produced by a nil slice; `okRes (some l)` is a 200 with a
JSON array body. -/
inductive ListRes
  | okRes (body : Option (List Appointment))
  | internalErr (msg : String)
deriving DecidableEq

/-- The sequence of appointments a caller can read out of a list
response (a `null` body carries no appointments). -/
def ListRes.items : ListRes → List Appointment
  | .okRes (some l) => l
  | .okRes none => []
  | .internalErr _ => []

/-- `GetAppointments` (handler.go lines 104-148), route
`GET /api/appointments`.  The gin context carries `userID`/`userRole`
set by the middleware, but this handler never reads them: the session
argument is unused, there is no role-based scoping, and the decoded
slice is sent as-is (nil slice included). -/
def getAppointments (s : Store) (q : ListQuery) (_sess : Session) :
    ListRes × Store :=
  let f := applyDateStatusFilters q emptyFilter
  let apts := s.findAppointments f byStartAsc
  (.okRes (cursorAll apts), s)

/-- `GetAppointment` (handler.go lines 151-230), route
`GET /api/appointment/user/:id`.  A client caller has the `patientId`
filter forced to their own id (an unparseable id claim is a 500); a
non-client caller may supply an explicit `patientId` query parameter.
A nil decoded slice is replaced by an empty one before responding. -/
def getAppointment (s : Store) (q : ListQuery) (sess : Session) :
    ListRes × Store :=
  if sess.userRole == "client" then
    match sess.userID with
    | none => (.internalErr "Invalid user ID in token", s)
    | some pid =>
      let f := applyDateStatusFilters q ⟨none, none, none, some pid⟩
      let apts := s.findAppointments f byStartDesc
      (.okRes (some ((cursorAll apts).getD [])), s)
  else
    let f0 := applyDateStatusFilters q emptyFilter
    let f := match q.patientId with
      | some (some p) => ⟨f0.gteStart, f0.lteStart, f0.status, some p⟩
      | _ => f0
    let apts := s.findAppointments f byStartDesc
    (.okRes (some ((cursorAll apts).getD [])), s)

/-- The JSON body of `CreateAppointment` after binding: the two time
strings carried as their RFC3339 parse results (`none` = malformed).
Note the request shape has no patient identifier field at all. -/
structure CreateReq where
  startTime : Option Time
  endTime : Option Time
  service : String
deriving DecidableEq

/-- HTTP outcome of `CreateAppointment`. -/
inductive CreateRes
  | badRequest (msg : String)
  | forbidden (msg : String)
  | internalErr (msg : String)
  | created (apt : Appointment)
deriving DecidableEq

/-- `CreateAppointment` (handler.go lines 44-101).  `body = none` is a
failed `ShouldBindJSON`.  `newId` is the fresh `primitive.NewObjectID()`.
Order follows the source: bind, parse both times, role check, caller
lookup (with the hex-parse error ignored, so a bad id claim becomes the
zero ObjectID), build with status "Scheduled", insert. -/
def createAppointment (s : Store) (body : Option CreateReq) (newId : ObjectId)
    (sess : Session) : CreateRes × Store :=
  match body with
  | none => (.badRequest "Invalid request body", s)
  | some req =>
    match req.startTime, req.endTime with
    | some st, some et =>
      if sess.userRole != "client" then
        (.forbidden "Only clients can book appointments.", s)
      else
        let patientID := sess.userID.getD 0
        match s.users.find? (fun u => u.id == patientID) with
        | none => (.internalErr "Could not find user details", s)
        | some patient =>
          let apt : Appointment :=
            ⟨newId, patientID, patient.fullName, st, et, req.service, "Scheduled"⟩
          (.created apt, ⟨s.users, s.appointments ++ [apt]⟩)
    | _, _ => (.badRequest "Invalid time format, use RFC3339", s)

/-- The sparse JSON body of `UpdateAppointment`.  Outer `Option`: field
absent from the body.  For the two time fields the inner `Option` is the
RFC3339 parse result of the supplied string (`some none` = supplied but
malformed). -/
structure UpdateReq where
  startTime : Option (Option Time)
  endTime : Option (Option Time)
  service : Option String
  status : Option String
deriving DecidableEq

/-- The `$set` document `updateFields` assembled by `UpdateAppointment`. -/
structure UpdateFields where
  startTime : Option Time
  endTime : Option Time
  service : Option String
  status : Option String
deriving DecidableEq

/-- handler.go lines 257-273: a supplied time string enters the `$set`
document only when it parses (a malformed one is silently dropped);
supplied `service` / `status` strings always enter it. -/
def buildUpdateFields (req : UpdateReq) : UpdateFields :=
  ⟨(match req.startTime with | some (some t) => some t | _ => none),
   (match req.endTime with | some (some t) => some t | _ => none),
   req.service, req.status⟩

/-- `len(updateFields) == 0`. -/
def UpdateFields.isEmpty (uf : UpdateFields) : Bool :=
  uf.startTime.isNone && uf.endTime.isNone && uf.service.isNone && uf.status.isNone

/-- Effect of `$set updateFields` on one appointment document. -/
def applySet (uf : UpdateFields) (a : Appointment) : Appointment :=
  ⟨a.id, a.patientID, a.patientName,
   uf.startTime.getD a.startTime, uf.endTime.getD a.endTime,
   uf.service.getD a.service, uf.status.getD a.status⟩

/-- HTTP outcome of `UpdateAppointment`. -/
inductive UpdateRes
  | forbidden (msg : String)
  | badRequest (msg : String)
  | internalErr (msg : String)
  | okMsg (msg : String)
deriving DecidableEq

/-- `UpdateAppointment` (handler.go lines 233-288).  `idParam` is the
hex-parse result of the `:id` path parameter; `body = none` is a failed
bind.  Role gate first, then id parse, then bind, then the sparse `$set`
assembly; an empty `$set` is rejected, otherwise `UpdateOne` runs (it
reports success even when no document matches the id). -/
def updateAppointment (s : Store) (idParam : Option ObjectId)
    (body : Option UpdateReq) (sess : Session) : UpdateRes × Store :=
  if sess.userRole != "dentist" && sess.userRole != "staff" then
    (.forbidden "Permission denied.", s)
  else
    match idParam with
    | none => (.badRequest "Invalid appointment ID", s)
    | some aid =>
      match body with
      | none => (.badRequest "Invalid request body", s)
      | some req =>
        let uf := buildUpdateFields req
        if uf.isEmpty then (.badRequest "No fields to update", s)
        else
          (.okMsg "Appointment updated successfully",
           ⟨s.users, updateOneById s.appointments aid (applySet uf)⟩)

/-- HTTP outcome of `CancelAppointment`. -/
inductive CancelRes
  | forbidden (msg : String)
  | badRequest (msg : String)
  | notFound (msg : String)
  | internalErr (msg : String)
  | okMsg (msg : String)
deriving DecidableEq

/-- Sets the status of an appointment document to "Cancelled". -/
def setCancelled (a : Appointment) : Appointment :=
  ⟨a.id, a.patientID, a.patientName, a.startTime, a.endTime, a.service, "Cancelled"⟩

/-- `CancelAppointment` (handler.go lines 291-331).  Role gate, id parse,
`FindOne` (absent id is a 404), then `UpdateOne` setting only
`status := "Cancelled"`; the record is never deleted.  The subsequent
patient lookup only feeds the notification and touches no state. -/
def cancelAppointment (s : Store) (idParam : Option ObjectId)
    (sess : Session) : CancelRes × Store :=
  if sess.userRole != "dentist" && sess.userRole != "staff" then
    (.forbidden "Permission denied.", s)
  else
    match idParam with
    | none => (.badRequest "Invalid appointment ID", s)
    | some aid =>
      match s.appointments.find? (fun a => a.id == aid) with
      | none => (.notFound "Appointment not found", s)
      | some _ =>
        (.okMsg "Appointment cancelled successfully",
         ⟨s.users, updateOneById s.appointments aid setCancelled⟩)

/-- The JSON body of `RegisterUser` after `ShouldBindJSON` with its
binding validators (fullName/email/password/phone constraints) passed;
note the `role` field has no `binding` tag and is unconstrained. -/
structure RegisterReq where
  fullName : String
  email : String
  password : String
  role : String
  phone : String
deriving DecidableEq

/-- HTTP outcome of `RegisterUser`. -/
inductive RegisterRes
  | badRequest (msg : String)
  | internalErr (msg : String)
  | conflictErr (msg : String)
  | created (user : User)
deriving DecidableEq

/-- The `models.User` document `RegisterUser` builds (auth_handler.go
lines 44-57): the stored role is the supplied one verbatim, with
"client" substituted only for the empty string. -/
def registeredUser (req : RegisterReq) (newId : ObjectId)
    (hash : String → String) : User :=
  ⟨newId, req.fullName, req.email, hash req.password,
   (if req.role == "" then "client" else req.role), req.phone⟩

/-- `RegisterUser` (auth_handler.go lines 26-76).  `body = none` is a
failed bind/validation (its message is the binder's error text, here a
placeholder).  `hash` is the bcrypt capability (`utils.HashPassword`,
total at the fixed cost used).  The unique index on email makes
`InsertOne` fail with a duplicate-key error when the email exists. -/
def registerUser (s : Store) (body : Option RegisterReq) (newId : ObjectId)
    (hash : String → String) : RegisterRes × Store :=
  match body with
  | none => (.badRequest "binding error", s)
  | some req =>
    let user := registeredUser req newId hash
    if s.users.any (fun u => u.email == req.email) then
      (.conflictErr "An account with this email already exists", s)
    else
      (.created user, ⟨s.users ++ [user], s.appointments⟩)

/-- The JSON body of `Login`. -/
structure LoginReq where
  email : String
  password : String
deriving DecidableEq

/-- HTTP outcome of `Login`. -/
inductive LoginRes
  | badRequest (msg : String)
  | unauthorized (msg : String)
  | internalErr (msg : String)
  | okTok (token : String) (user : User)
deriving DecidableEq

/-- `Login` (auth_handler.go lines 79-117).  `chk` is
`utils.CheckPasswordHash`; `gen` is `utils.GenerateJWT`, returning `none`
when the signing secret is unconfigured.  Both the absent-user path and
the wrong-password path answer 401 "Invalid credentials".  On success the
password field is blanked before the user is echoed back. -/
def login (s : Store) (body : Option LoginReq)
    (chk : String → String → Bool) (gen : ObjectId → String → Option String) :
    LoginRes × Store :=
  match body with
  | none => (.badRequest "Invalid request", s)
  | some req =>
    match s.users.find? (fun u => u.email == req.email) with
    | none => (.unauthorized "Invalid credentials", s)
    | some user =>
      if !(chk req.password user.password) then
        (.unauthorized "Invalid credentials", s)
      else
        match gen user.id user.role with
        | none => (.internalErr "Could not generate token", s)
        | some tok =>
          (.okTok tok ⟨user.id, user.fullName, user.email, "", user.role, user.phone⟩, s)

/-! ### Concrete fixtures used to instantiate the theorems -/

/-- A client caller whose id claim parses to `1`. -/
def aliceSession : Session := ⟨some 1, "client"⟩

/-- A staff caller. -/
def staffSession : Session := ⟨some 9, "staff"⟩

/-- An appointment belonging to patient `2`. -/
def aptOfPatientTwo : Appointment := ⟨10, 2, "Bob", 100, 200, "Cleaning", "Scheduled"⟩

/-- An appointment belonging to patient `1`. -/
def aptOfPatientOne : Appointment := ⟨20, 1, "Alice", 300, 400, "Whitening", "Scheduled"⟩

/-- A store holding only another patient's appointment. -/
def leakStore : Store :=
  ⟨[⟨1, "Alice", "alice@mail.test", "hash1", "client", ""⟩], [aptOfPatientTwo]⟩

/-- A store holding appointments of two different patients. -/
def scopedStore : Store := ⟨[], [aptOfPatientTwo, aptOfPatientOne]⟩

/-- A registered client user. -/
def bobUser : User := ⟨5, "Bob Dupont", "bob@mail.test", "hashB", "client", "0341122334"⟩

/-- A store holding only `bobUser`. -/
def bobStore : Store := ⟨[bobUser], []⟩

/-- The session of `bobUser`. -/
def bobSession : Session := ⟨some 5, "client"⟩

/-- A well-formed booking request (both times parsed). -/
def bookingReq : CreateReq := ⟨some 1000, some 2000, "Cleaning"⟩

/-- An appointment used as update/cancel target. -/
def wApt : Appointment := ⟨50, 5, "Bob Dupont", 1000, 2000, "Cleaning", "Scheduled"⟩

/-- A store holding only `wApt`. -/
def wStore4 : Store := ⟨[], [wApt]⟩

/-- A sparse update body: a malformed `startTime` string plus a valid
`status`. -/
def wReq4 : UpdateReq := ⟨some none, none, none, some "Confirmed"⟩

/-- Midnight of 2024-07-01 (UTC), taken as the time origin. -/
def julyFirstMidnight : Time := 0

/-- Midnight of 2024-07-02 (UTC). -/
def julySecondMidnight : Time := 86400

/-- Midnight of 2024-07-31 (UTC). -/
def julyLastMidnight : Time := 30 * 86400

/-- An appointment at 2024-07-01T08:00Z. -/
def aptJulyFirst : Appointment :=
  ⟨31, 7, "Cara", 8 * 3600, 9 * 3600, "Checkup", "Scheduled"⟩

/-- An appointment at 2024-07-31T23:00Z. -/
def aptJulyLast : Appointment :=
  ⟨32, 7, "Cara", 30 * 86400 + 23 * 3600, 30 * 86400 + 24 * 3600, "Checkup", "Scheduled"⟩

/-- A store holding the two dated appointments of the spec's example. -/
def julyStore : Store := ⟨[], [aptJulyFirst, aptJulyLast]⟩

/-- An appointment at 2024-07-31T23:59:59Z, the last second of the day. -/
def aptLastSecond : Appointment :=
  ⟨33, 7, "Cara", 30 * 86400 + 86399, 30 * 86400 + 86400, "Checkup", "Scheduled"⟩

/-- A store holding only `aptLastSecond`. -/
def lastSecondStore : Store := ⟨[], [aptLastSecond]⟩

/-- A registered user for the login scenarios. -/
def carolUser : User := ⟨8, "Carol", "carol@mail.test", "pw-hash", "client", ""⟩

/-- A store holding only `carolUser`. -/
def authStore : Store := ⟨[carolUser], []⟩

/-- A concrete password-check capability: plain string comparison. -/
def eqCheck : String → String → Bool := fun p h => p == h

/-- A concrete token-issuing capability that always succeeds. -/
def fixedTok : ObjectId → String → Option String := fun _ _ => some "tok"

/-- A concrete hashing capability. -/
def sampleHash : String → String := fun p => p ++ "#h"

/-- A registration request that self-assigns the privileged "dentist"
role. -/
def evilReq : RegisterReq :=
  ⟨"Mallory", "mallory@mail.test", "longenough1", "dentist", "0341111111"⟩

/-! ### Helper lemmas about the embedded store operations -/

/-- Membership is preserved by a sorted insertion. -/
theorem mem_insertLe (le : Appointment → Appointment → Bool) (a x : Appointment)
    (l : List Appointment) : x ∈ insertLe le a l ↔ x = a ∨ x ∈ l := by
  induction l with
  | nil => simp [insertLe]
  | cons b rest ih =>
    by_cases h : le a b = true
    · simp [insertLe, h]
    · simp only [insertLe, h, if_neg, Bool.not_eq_true] at *
      simp [List.mem_cons, ih]
      tauto

/-- Sorting a result set does not change its members. -/
theorem mem_sortLe (le : Appointment → Appointment → Bool) (x : Appointment)
    (l : List Appointment) : x ∈ sortLe le l ↔ x ∈ l := by
  induction l with
  | nil => simp [sortLe]
  | cons a rest ih => simp [sortLe, mem_insertLe, ih]

/-- Reading the items out of a 200 response built from a decoded cursor
recovers exactly the matched documents, whether or not the slice is nil. -/
theorem items_okRes_cursorAll (l : List Appointment) :
    (ListRes.okRes (cursorAll l)).items = l := by
  cases l <;> simp [cursorAll, ListRes.items]

/-- The nil-slice normalization of `GetAppointment` recovers the matched
documents as well. -/
theorem getD_cursorAll (l : List Appointment) : (cursorAll l).getD [] = l := by
  cases l <;> simp [cursorAll]

/-- `UpdateOne` on an id that matches no document leaves the collection
unchanged. -/
theorem updateOneById_of_find_none (l : List Appointment) (aid : ObjectId)
    (g : Appointment → Appointment)
    (h : l.find? (fun a => a.id == aid) = none) : updateOneById l aid g = l := by
  induction l with
  | nil => rfl
  | cons a rest ih =>
    by_cases ha : (a.id == aid) = true
    · simp [List.find?_cons, ha] at h
    · simp only [List.find?_cons, ha, Bool.false_eq_true, if_false,
        Bool.not_eq_true] at h
      simp [updateOneById, ha, ih h]

/-- `UpdateOne` does not change the number of documents. -/
theorem length_updateOneById (l : List Appointment) (aid : ObjectId)
    (g : Appointment → Appointment) :
    (updateOneById l aid g).length = l.length := by
  induction l with
  | nil => rfl
  | cons a rest ih =>
    by_cases ha : (a.id == aid) = true
    · simp [updateOneById, ha]
    · simp [updateOneById, ha, ih]

/-- A document whose id differs from the updated one is still present,
unchanged, after `UpdateOne`. -/
theorem mem_updateOneById_of_ne (l : List Appointment) (aid : ObjectId)
    (g : Appointment → Appointment) (b : Appointment) (hb : b ∈ l)
    (hne : b.id ≠ aid) : b ∈ updateOneById l aid g := by
  induction l with
  | nil => cases hb
  | cons a rest ih =>
    by_cases ha : (a.id == aid) = true
    · simp only [updateOneById, ha, if_true]
      rcases List.mem_cons.mp hb with hba | hbr
      · exact absurd (hba ▸ eq_of_beq ha) hne
      · exact List.mem_cons.mpr (Or.inr hbr)
    · simp only [updateOneById, ha, Bool.false_eq_true, if_false]
      rcases List.mem_cons.mp hb with hba | hbr
      · exact List.mem_cons.mpr (Or.inl hba)
      · exact List.mem_cons.mpr (Or.inr (ih hbr))

/-- `FindOne` by id after `UpdateOne` by the same id returns the rewrite
of the document `FindOne` returned before, provided the rewrite keeps the
id. -/
theorem find_updateOneById (l : List Appointment) (aid : ObjectId)
    (g : Appointment → Appointment) (a0 : Appointment)
    (hfind : l.find? (fun a => a.id == aid) = some a0)
    (hid : (g a0).id = a0.id) :
    (updateOneById l aid g).find? (fun a => a.id == aid) = some (g a0) := by
  induction l with
  | nil => simp [List.find?] at hfind
  | cons a rest ih =>
    by_cases ha : (a.id == aid) = true
    · simp only [List.find?_cons, ha, if_true, Option.some.injEq] at hfind
      subst hfind
      have hga : ((g a).id == aid) = true := by
        rw [hid]; exact ha
      simp [updateOneById, ha, List.find?_cons, hga]
    · simp only [List.find?_cons, ha, Bool.false_eq_true, if_false] at hfind
      simp only [updateOneById, ha, Bool.false_eq_true, if_false]
      simp [List.find?_cons, ha, ih hfind]

/-- The date/status filtering steps never touch the `patientId` slot. -/
theorem applyDateStatusFilters_patientId (q : ListQuery) (f0 : AptFilter) :
    (applyDateStatusFilters q f0).patientId = f0.patientId := by
  unfold applyDateStatusFilters
  rcases q with ⟨sd, ed, st, pid⟩
  rcases sd with _ | sd <;> rcases ed with _ | ed <;> rcases st with _ | st <;>
    first
      | rfl
      | (rcases sd with _ | sd <;> rcases ed with _ | ed <;> rfl)
      | (rcases sd with _ | sd <;> rfl)
      | (rcases ed with _ | ed <;> rfl)

/-- A document matching a filter whose `patientId` slot is pinned has
exactly that patient identifier. -/
theorem matches_patientId (f : AptFilter) (a : Appointment) (p : ObjectId)
    (hm : f.matches a = true) (hp : f.patientId = some p) : a.patientID = p := by
  unfold AptFilter.matches at hm
  rw [hp] at hm
  simp only [Bool.and_eq_true, beq_iff_eq] at hm
  exact hm.2

/-- What ends up in the items of a `GetAppointments` response: exactly the
stored appointments matching the date/status filter. -/
theorem mem_items_getAppointments (s : Store) (q : ListQuery) (sess : Session)
    (a : Appointment) :
    a ∈ (getAppointments s q sess).1.items ↔
      a ∈ s.appointments ∧ (applyDateStatusFilters q emptyFilter).matches a = true := by
  unfold getAppointments Store.findAppointments
  simp only [items_okRes_cursorAll, mem_sortLe, List.mem_filter]

/-- Client branch of `GetAppointment` in closed form: the filter is the
date/status filter on top of the forced `patientId` pin. -/
theorem getAppointment_client_eq (s : Store) (q : ListQuery) (uid : ObjectId)
    (sess : Session) (hrole : sess.userRole = "client")
    (hid : sess.userID = some uid) :
    getAppointment s q sess =
      (ListRes.okRes (some (s.findAppointments
          (applyDateStatusFilters q ⟨none, none, none, some uid⟩) byStartDesc)), s) := by
  unfold getAppointment
  rw [hrole, hid]
  simp [getD_cursorAll]

/-- Every response of `GetAppointment` is either a 200 with a non-nil
array body or the invalid-token 500. -/
theorem getAppointment_shape (s : Store) (q : ListQuery) (sess : Session) :
    (∃ l, (getAppointment s q sess).1 = ListRes.okRes (some l)) ∨
    (getAppointment s q sess).1 = ListRes.internalErr "Invalid user ID in token" := by
  unfold getAppointment
  by_cases hr : (sess.userRole == "client") = true
  · rw [if_pos hr]
    cases sess.userID with
    | none => exact Or.inr rfl
    | some pid => exact Or.inl ⟨_, rfl⟩
  · rw [if_neg hr]
    rcases q with ⟨sd, ed, st, pq⟩
    rcases pq with _ | pq
    · exact Or.inl ⟨_, rfl⟩
    · rcases pq with _ | p <;> exact Or.inl ⟨_, rfl⟩

/-! ### Claim theorems -/

/-- C1 (counterexample): a caller whose session role is "client" and
whose identifier is 1 calls the `GET /api/appointments` list variant
with no filters and receives an appointment whose patient identifier is
2 ≠ 1 — the patient filter is not forced server-side in this variant,
so the claim as stated is false. -/
theorem C1_counterexample :
    aliceSession.userRole = "client" ∧ aliceSession.userID = some 1 ∧
    (getAppointments leakStore noQuery aliceSession).1.items = [aptOfPatientTwo] ∧
    aptOfPatientTwo.patientID ≠ 1 := by
  decide

/-- C1 (amended): only in the `GET /api/appointment/user/:id` variant is
the patient filter forced server-side to the caller's own identifier:
there, a client caller never receives an appointment whose patient
identifier differs from their own, regardless of any supplied filter.
`GET /api/appointments` applies no role-based scoping at all. -/
theorem getAppointment_client_scoped (s : Store) (q : ListQuery) (uid : ObjectId)
    (sess : Session) (hrole : sess.userRole = "client")
    (hid : sess.userID = some uid) :
    ∀ a ∈ (getAppointment s q sess).1.items, a.patientID = uid := by
  intro a ha
  rw [getAppointment_client_eq s q uid sess hrole hid] at ha
  simp only [ListRes.items] at ha
  unfold Store.findAppointments at ha
  rw [mem_sortLe] at ha
  rcases List.mem_filter.mp ha with ⟨-, hm⟩
  refine matches_patientId _ a uid hm ?_
  rw [applyDateStatusFilters_patientId]

/-- C1 (witness): instantiation of the amended theorem — a client with
identifier 1, on a store holding appointments of patients 1 and 2,
receives through the user-scoped list variant only appointments with
patient identifier 1. -/
theorem C1_witness : aptOfPatientOne.patientID = 1 :=
  getAppointment_client_scoped scopedStore noQuery 1 aliceSession rfl rfl
    aptOfPatientOne (by decide)

/-- C2: a client caller with well-formed RFC3339 times and an existing
user record gets an appointment persisted and returned whose patient
identifier is the session's own identifier (the request body has no
patient field at all), with status "Scheduled" and the patient name
denormalized from the looked-up user record. -/
theorem createAppointment_client_books_self (s : Store) (req : CreateReq)
    (st et : Time) (newId uid : ObjectId) (u : User) (sess : Session)
    (hrole : sess.userRole = "client") (hid : sess.userID = some uid)
    (hst : req.startTime = some st) (het : req.endTime = some et)
    (hu : s.users.find? (fun x => x.id == uid) = some u) :
    createAppointment s (some req) newId sess =
      (CreateRes.created ⟨newId, uid, u.fullName, st, et, req.service, "Scheduled"⟩,
       ⟨s.users, s.appointments ++ [⟨newId, uid, u.fullName, st, et, req.service, "Scheduled"⟩]⟩) := by
  simp [createAppointment, hst, het, hrole, hid, hu]

/-- C2 (witness): Bob (client, id 5) books a cleaning; the stored and
returned appointment carries patient id 5, his name, and status
"Scheduled". -/
theorem C2_witness :
    createAppointment bobStore (some bookingReq) 42 bobSession =
      (CreateRes.created ⟨42, 5, "Bob Dupont", 1000, 2000, "Cleaning", "Scheduled"⟩,
       ⟨[bobUser], [⟨42, 5, "Bob Dupont", 1000, 2000, "Cleaning", "Scheduled"⟩]⟩) :=
  createAppointment_client_books_self bobStore bookingReq 1000 2000 42 5 bobUser
    bobSession rfl rfl rfl rfl (by decide)

/-- C3 (counterexample): a staff caller whose request carries a malformed
startTime gets the ValidationError "Invalid time format, use RFC3339",
not PermissionDenied — input validation runs before the permission
check, so the claim that every non-client Create fails with
PermissionDenied is false as stated. -/
theorem C3_counterexample :
    (createAppointment ⟨[], []⟩ (some ⟨none, some 0, "Cleaning"⟩) 1
        ⟨some 1, "staff"⟩).1 = CreateRes.badRequest "Invalid time format, use RFC3339" ∧
    (createAppointment ⟨[], []⟩ (some ⟨none, some 0, "Cleaning"⟩) 1
        ⟨some 1, "staff"⟩).1 ≠ CreateRes.forbidden "Only clients can book appointments." := by
  decide

/-- C3 (amended): for a caller whose role is not "client", Create fails
with PermissionDenied whenever the body binds and both times parse
(malformed input instead fails with a ValidationError raised before the
permission check); in every case no appointment is persisted and no
store access occurs — the store is returned unchanged and the response
does not depend on the store contents. -/
theorem createAppointment_nonclient_denied (s t : Store) (body : Option CreateReq)
    (newId : ObjectId) (sess : Session) (hrole : sess.userRole ≠ "client") :
    (∀ req st et, body = some req → req.startTime = some st → req.endTime = some et →
        (createAppointment s body newId sess).1
          = CreateRes.forbidden "Only clients can book appointments.") ∧
    (createAppointment s body newId sess).2 = s ∧
    (createAppointment s body newId sess).1 = (createAppointment t body newId sess).1 := by
  have hb : (sess.userRole != "client") = true := by
    simp [bne_iff_ne, hrole]
  rcases body with _ | req
  · refine ⟨?_, rfl, rfl⟩
    intro req st et hr
    cases hr
  · rcases req with ⟨ost, oet, srv⟩
    rcases ost with _ | st
    · refine ⟨?_, rfl, rfl⟩
      intro r st' et' hr hs'
      cases hr
      cases hs'
    · rcases oet with _ | et
      · refine ⟨?_, rfl, rfl⟩
        intro r st' et' hr hs' he'
        cases hr
        cases he'
      · refine ⟨?_, ?_, ?_⟩
        · intro r st' et' hr hs' he'
          simp [createAppointment, hb]
        · simp [createAppointment, hb]
        · simp [createAppointment, hb]

/-- C3 (witness): a staff caller with a fully well-formed booking request
is denied with the permission message, and the store is unchanged. -/
theorem C3_witness :
    (createAppointment ⟨[], []⟩ (some ⟨some 5, some 6, "Cleaning"⟩) 1
        ⟨some 1, "staff"⟩).1 = CreateRes.forbidden "Only clients can book appointments." ∧
    (createAppointment ⟨[], []⟩ (some ⟨some 5, some 6, "Cleaning"⟩) 1
        ⟨some 1, "staff"⟩).2 = ⟨[], []⟩ :=
  ⟨(createAppointment_nonclient_denied ⟨[], []⟩ ⟨[], []⟩
      (some ⟨some 5, some 6, "Cleaning"⟩) 1 ⟨some 1, "staff"⟩ (by decide)).1
      ⟨some 5, some 6, "Cleaning"⟩ 5 6 rfl rfl rfl,
   (createAppointment_nonclient_denied ⟨[], []⟩ ⟨[], []⟩
      (some ⟨some 5, some 6, "Cleaning"⟩) 1 ⟨some 1, "staff"⟩ (by decide)).2.1⟩

/-- C4: for a dentist/staff caller updating an existing appointment, an
empty update set fails with the ValidationError "No fields to update"
and changes no state; a non-empty one reports success and rewrites
exactly the targeted document: the stored record keeps its identity
fields, takes each supplied well-formed field's value, keeps the prior
value of every unsupplied field, and a supplied-but-malformed timestamp
is silently dropped (it contributes nothing to the update set); every
other document is untouched and the collection size is preserved. -/
theorem updateAppointment_sparse_fields (s : Store) (aid : ObjectId)
    (req : UpdateReq) (sess : Session) (a0 : Appointment)
    (hrole : sess.userRole = "dentist" ∨ sess.userRole = "staff")
    (hfind : s.appointments.find? (fun a => a.id == aid) = some a0) :
    ((buildUpdateFields req).isEmpty = true →
      updateAppointment s (some aid) (some req) sess
        = (UpdateRes.badRequest "No fields to update", s)) ∧
    ((buildUpdateFields req).isEmpty = false →
      (updateAppointment s (some aid) (some req) sess).1
          = UpdateRes.okMsg "Appointment updated successfully" ∧
      (updateAppointment s (some aid) (some req) sess).2.users = s.users ∧
      (updateAppointment s (some aid) (some req) sess).2.appointments.find?
          (fun a => a.id == aid) = some (applySet (buildUpdateFields req) a0) ∧
      (∀ b ∈ s.appointments, b.id ≠ aid →
          b ∈ (updateAppointment s (some aid) (some req) sess).2.appointments) ∧
      (updateAppointment s (some aid) (some req) sess).2.appointments.length
          = s.appointments.length) ∧
    (applySet (buildUpdateFields req) a0).id = a0.id ∧
    (applySet (buildUpdateFields req) a0).patientID = a0.patientID ∧
    (applySet (buildUpdateFields req) a0).patientName = a0.patientName ∧
    (applySet (buildUpdateFields req) a0).startTime
        = (match req.startTime with | some (some t) => t | _ => a0.startTime) ∧
    (applySet (buildUpdateFields req) a0).endTime
        = (match req.endTime with | some (some t) => t | _ => a0.endTime) ∧
    (applySet (buildUpdateFields req) a0).service
        = (match req.service with | some v => v | none => a0.service) ∧
    (applySet (buildUpdateFields req) a0).status
        = (match req.status with | some v => v | none => a0.status) := by
  have hb : (sess.userRole != "dentist" && sess.userRole != "staff") = false := by
    rcases hrole with h | h <;> rw [h] <;> decide
  obtain ⟨rst, ret, rsv, rstat⟩ := req
  refine ⟨?_, ?_, rfl, rfl, rfl, ?_, ?_, ?_, ?_⟩
  · intro he
    simp [updateAppointment, hb, he]
  · intro he
    have heq : updateAppointment s (some aid) (some ⟨rst, ret, rsv, rstat⟩) sess
        = (UpdateRes.okMsg "Appointment updated successfully",
           ⟨s.users, updateOneById s.appointments aid
              (applySet (buildUpdateFields ⟨rst, ret, rsv, rstat⟩))⟩) := by
      simp [updateAppointment, hb, he]
    rw [heq]
    exact ⟨rfl, rfl, find_updateOneById _ _ _ _ hfind rfl,
      fun b hbmem hne => mem_updateOneById_of_ne _ _ _ _ hbmem hne,
      length_updateOneById _ _ _⟩
  · rcases rst with _ | rst
    · rfl
    · rcases rst with _ | t <;> rfl
  · rcases ret with _ | ret
    · rfl
    · rcases ret with _ | t <;> rfl
  · rcases rsv with _ | v <;> rfl
  · rcases rstat with _ | v <;> rfl

/-- C4 (witness): a staff caller updates appointment 50 with a malformed
startTime plus status "Confirmed": the stored record keeps its original
start time (the malformed field was dropped), takes the new status, and
is found back under its id. -/
theorem C4_witness :
    (updateAppointment wStore4 (some 50) (some wReq4) staffSession).2.appointments.find?
        (fun a => a.id == 50) = some (applySet (buildUpdateFields wReq4) wApt) ∧
    (applySet (buildUpdateFields wReq4) wApt).startTime = wApt.startTime ∧
    (applySet (buildUpdateFields wReq4) wApt).status = "Confirmed" ∧
    updateAppointment wStore4 (some 50) (some ⟨some none, none, none, none⟩) staffSession
        = (UpdateRes.badRequest "No fields to update", wStore4) :=
  ⟨((updateAppointment_sparse_fields wStore4 50 wReq4 staffSession wApt
      (Or.inr rfl) rfl).2.1 rfl).2.2.1,
   (updateAppointment_sparse_fields wStore4 50 wReq4 staffSession wApt
      (Or.inr rfl) rfl).2.2.2.2.2.1,
   (updateAppointment_sparse_fields wStore4 50 wReq4 staffSession wApt
      (Or.inr rfl) rfl).2.2.2.2.2.2.2.2,
   (updateAppointment_sparse_fields wStore4 50 ⟨some none, none, none, none⟩
      staffSession wApt (Or.inr rfl) rfl).1 rfl⟩

/-- C5: for a dentist/staff caller, Cancel on an id matching no stored
appointment fails with NotFound and changes no state; on an existing
appointment it reports success, keeps the collection size (the record is
retained, not deleted), leaves every other document untouched, and the
record found under that id afterwards is the prior record with only its
status changed to "Cancelled" — which is what a subsequent List/Get for
that id shows. -/
theorem cancelAppointment_spec (s : Store) (aid : ObjectId) (sess : Session)
    (hrole : sess.userRole = "dentist" ∨ sess.userRole = "staff") :
    (s.appointments.find? (fun a => a.id == aid) = none →
        cancelAppointment s (some aid) sess
          = (CancelRes.notFound "Appointment not found", s)) ∧
    (∀ a0, s.appointments.find? (fun a => a.id == aid) = some a0 →
        (cancelAppointment s (some aid) sess).1
            = CancelRes.okMsg "Appointment cancelled successfully" ∧
        (cancelAppointment s (some aid) sess).2.users = s.users ∧
        (cancelAppointment s (some aid) sess).2.appointments.length
            = s.appointments.length ∧
        (cancelAppointment s (some aid) sess).2.appointments.find?
            (fun a => a.id == aid) = some (setCancelled a0) ∧
        (setCancelled a0).status = "Cancelled" ∧
        (setCancelled a0).id = a0.id ∧
        (setCancelled a0).patientID = a0.patientID ∧
        (setCancelled a0).patientName = a0.patientName ∧
        (setCancelled a0).startTime = a0.startTime ∧
        (setCancelled a0).endTime = a0.endTime ∧
        (setCancelled a0).service = a0.service ∧
        (∀ b ∈ s.appointments, b.id ≠ aid →
            b ∈ (cancelAppointment s (some aid) sess).2.appointments)) := by
  have hb : (sess.userRole != "dentist" && sess.userRole != "staff") = false := by
    rcases hrole with h | h <;> rw [h] <;> decide
  constructor
  · intro hnone
    simp [cancelAppointment, hb, hnone]
  · intro a0 hfind
    have heq : cancelAppointment s (some aid) sess
        = (CancelRes.okMsg "Appointment cancelled successfully",
           ⟨s.users, updateOneById s.appointments aid setCancelled⟩) := by
      simp [cancelAppointment, hb, hfind]
    rw [heq]
    exact ⟨rfl, rfl, length_updateOneById _ _ _,
      find_updateOneById _ _ _ _ hfind rfl, rfl, rfl, rfl, rfl, rfl, rfl, rfl,
      fun b hbmem hne => mem_updateOneById_of_ne _ _ _ _ hbmem hne⟩

/-- C5 (witness): cancelling existing appointment 50 leaves it stored
with status "Cancelled"; cancelling absent id 99 yields NotFound and an
unchanged store. -/
theorem C5_witness :
    (cancelAppointment wStore4 (some 50) staffSession).2.appointments.find?
        (fun a => a.id == 50) = some (setCancelled wApt) ∧
    (setCancelled wApt).status = "Cancelled" ∧
    cancelAppointment wStore4 (some 99) staffSession
        = (CancelRes.notFound "Appointment not found", wStore4) :=
  ⟨((cancelAppointment_spec wStore4 50 staffSession (Or.inr rfl)).2 wApt rfl).2.2.2.1,
   ((cancelAppointment_spec wStore4 50 staffSession (Or.inr rfl)).2 wApt rfl).2.2.2.2.1,
   (cancelAppointment_spec wStore4 99 staffSession (Or.inr rfl)).1 rfl⟩

/-- C10: a dentist/staff caller updating a syntactically valid id that
matches no stored appointment, with at least one valid field, gets the
success response (no NotFound is produced) while the store is returned
unchanged. -/
theorem updateAppointment_missing_id_ok (s : Store) (aid : ObjectId)
    (req : UpdateReq) (sess : Session)
    (hrole : sess.userRole = "dentist" ∨ sess.userRole = "staff")
    (hmiss : s.appointments.find? (fun a => a.id == aid) = none)
    (hne : (buildUpdateFields req).isEmpty = false) :
    updateAppointment s (some aid) (some req) sess
        = (UpdateRes.okMsg "Appointment updated successfully", s) := by
  have hb : (sess.userRole != "dentist" && sess.userRole != "staff") = false := by
    rcases hrole with h | h <;> rw [h] <;> decide
  simp [updateAppointment, hb, hne, updateOneById_of_find_none _ _ _ hmiss]

/-- C10 (witness): updating the absent id 99 with a valid status field
reports success and leaves the store untouched. -/
theorem C10_witness :
    updateAppointment wStore4 (some 99) (some wReq4) staffSession
        = (UpdateRes.okMsg "Appointment updated successfully", wStore4) :=
  updateAppointment_missing_id_ok wStore4 99 wReq4 staffSession (Or.inr rfl) rfl rfl

/-- C6 (counterexample): the end boundary added to a parsed end date is
23h59m, i.e. 23:59:00 of that day, not 23:59:59: an appointment at
2024-07-31T23:59:59Z (86399 seconds past the end date's midnight) is
excluded by List(endDate=2024-07-31), refuting "inclusive through
23:59:59 of that day". -/
theorem C6_counterexample :
    aptLastSecond.startTime = julyLastMidnight + 86399 ∧
    (getAppointments lastSecondStore
        ⟨none, some (some julyLastMidnight), none, none⟩ staffSession).1.items = [] := by
  decide

/-- C6 (amended): with a date-range filter, a stored appointment is
listed iff its start time is at or after 00:00 of the start date and at
or before 23:59:00 of the end date (the end boundary is the parsed
date's midnight plus 23h59m, compared inclusively); instants later in
the final minute of the end day are excluded.  The spec's concrete
examples follow: appointments at 2024-07-01T08:00Z and 2024-07-31T23:00Z
are both within List(startDate=2024-07-01, endDate=2024-07-31), and
List(startDate=2024-07-02) excludes the first. -/
theorem list_dateRange_boundary (s : Store) (sess : Session) (a : Appointment)
    (sd ed : Option Time) (ha : a ∈ s.appointments) :
    (a ∈ (getAppointments s
        ⟨Option.map some sd, Option.map some ed, none, none⟩ sess).1.items) ↔
      ((match sd with | some d => d ≤ a.startTime | none => True) ∧
       (match ed with | some d => a.startTime ≤ d + endOfDayOffset | none => True)) := by
  rw [mem_items_getAppointments]
  rcases sd with _ | d1 <;> rcases ed with _ | d2 <;>
    simp [applyDateStatusFilters, AptFilter.matches, emptyFilter, ha]

/-- C6 (witness): the spec's example instantiated — both July
appointments are inside the 2024-07-01..2024-07-31 range, and the
July 1st one is excluded once startDate moves to 2024-07-02. -/
theorem C6_witness :
    (aptJulyFirst ∈ (getAppointments julyStore
        ⟨some (some julyFirstMidnight), some (some julyLastMidnight), none, none⟩
        staffSession).1.items) ∧
    (aptJulyLast ∈ (getAppointments julyStore
        ⟨some (some julyFirstMidnight), some (some julyLastMidnight), none, none⟩
        staffSession).1.items) ∧
    (aptJulyFirst ∉ (getAppointments julyStore
        ⟨some (some julySecondMidnight), none, none, none⟩ staffSession).1.items) :=
  ⟨(list_dateRange_boundary julyStore staffSession aptJulyFirst
      (some julyFirstMidnight) (some julyLastMidnight) (by decide)).mpr (by decide),
   (list_dateRange_boundary julyStore staffSession aptJulyLast
      (some julyFirstMidnight) (some julyLastMidnight) (by decide)).mpr (by decide),
   fun h => absurd ((list_dateRange_boundary julyStore staffSession aptJulyFirst
      (some julySecondMidnight) none (by decide)).mp h) (by decide)⟩

/-- C7: Login with a correct email but a password that fails the hash
check and Login with an email bound to no account produce literally the
same outcome — a 401 with the message "Invalid credentials" and an
unchanged store (never NotFound), so the two runs carry no signal about
account existence. -/
theorem login_no_account_probe (s : Store) (e1 pw1 e2 pw2 : String) (u : User)
    (chk : String → String → Bool) (gen : ObjectId → String → Option String)
    (h1 : s.users.find? (fun x => x.email == e1) = some u)
    (h2 : chk pw1 u.password = false)
    (h3 : s.users.find? (fun x => x.email == e2) = none) :
    login s (some ⟨e1, pw1⟩) chk gen = (LoginRes.unauthorized "Invalid credentials", s) ∧
    login s (some ⟨e2, pw2⟩) chk gen = (LoginRes.unauthorized "Invalid credentials", s) ∧
    login s (some ⟨e1, pw1⟩) chk gen = login s (some ⟨e2, pw2⟩) chk gen := by
  have ha : login s (some ⟨e1, pw1⟩) chk gen
      = (LoginRes.unauthorized "Invalid credentials", s) := by
    simp [login, h1, h2]
  have hbb : login s (some ⟨e2, pw2⟩) chk gen
      = (LoginRes.unauthorized "Invalid credentials", s) := by
    simp [login, h3]
  exact ⟨ha, hbb, ha.trans hbb.symm⟩

/-- C7 (witness): Carol exists with stored credential "pw-hash"; logging
in as Carol with a wrong password and logging in as the nonexistent
ghost account both yield the identical 401 "Invalid credentials". -/
theorem C7_witness :
    login authStore (some ⟨"carol@mail.test", "wrong-pw"⟩) eqCheck fixedTok
        = (LoginRes.unauthorized "Invalid credentials", authStore) ∧
    login authStore (some ⟨"ghost@mail.test", "whatever"⟩) eqCheck fixedTok
        = (LoginRes.unauthorized "Invalid credentials", authStore) :=
  ⟨(login_no_account_probe authStore "carol@mail.test" "wrong-pw" "ghost@mail.test"
      "whatever" carolUser eqCheck fixedTok (by decide) (by decide) (by decide)).1,
   (login_no_account_probe authStore "carol@mail.test" "wrong-pw" "ghost@mail.test"
      "whatever" carolUser eqCheck fixedTok (by decide) (by decide) (by decide)).2.1⟩

/-- C8 (counterexample): `GET /api/appointments` with filters matching
nothing responds with the body of a nil slice — a JSON null marker, not
an empty sequence — so the claim fails for this list variant. -/
theorem C8_counterexample :
    getAppointments ⟨[], []⟩ noQuery aliceSession = (ListRes.okRes none, ⟨[], []⟩) := by
  decide

/-- C8 (amended): only the `GET /api/appointment/user/:id` variant
normalizes an empty result to an empty sequence: every 200 it produces
carries a real (non-nil) array body, and when the store holds no
appointments it answers exactly the empty array with the store
unchanged.  `GET /api/appointments` instead leaves the nil slice, which
serializes as a null marker when nothing matches. -/
theorem getAppointment_empty_is_array (s : Store) (q : ListQuery) (sess : Session)
    (pid : ObjectId) (hid : sess.userID = some pid) :
    (∀ b, (getAppointment s q sess).1 = ListRes.okRes b → b.isSome = true) ∧
    (s.appointments = [] → getAppointment s q sess = (ListRes.okRes (some []), s)) := by
  constructor
  · intro b h
    rcases getAppointment_shape s q sess with ⟨l, hl⟩ | he
    · rw [hl] at h
      injection h with h1
      rw [← h1]
      rfl
    · rw [he] at h
      exact ListRes.noConfusion h
  · intro hemp
    have hfind : ∀ f le, s.findAppointments f le = [] := by
      intro f le
      unfold Store.findAppointments
      rw [hemp]
      rfl
    obtain ⟨sd, ed, st, pq⟩ := q
    unfold getAppointment
    by_cases hr : (sess.userRole == "client") = true
    · rw [if_pos hr, hid]
      simp [hfind, cursorAll]
    · rw [if_neg hr]
      rcases pq with _ | pq
      · simp [hfind, cursorAll]
      · rcases pq with _ | p <;> simp [hfind, cursorAll]

/-- C8 (witness): on an empty store the user-scoped list variant answers
the empty array (not null) for a client caller. -/
theorem C8_witness :
    getAppointment ⟨[], []⟩ noQuery aliceSession = (ListRes.okRes (some []), ⟨[], []⟩) :=
  (getAppointment_empty_is_array ⟨[], []⟩ noQuery aliceSession 1 rfl).2 rfl

/-- C9: Register stores the caller-supplied role string verbatim — no
validation against the role set — substituting "client" only when the
role field is the empty string; with a fresh email the built user record
is persisted and returned as-is, so any caller can self-register a
privileged role such as "dentist". -/
theorem registerUser_stores_supplied_role (s : Store) (req : RegisterReq)
    (newId : ObjectId) (hash : String → String)
    (hfresh : s.users.any (fun u => u.email == req.email) = false) :
    registerUser s (some req) newId hash
        = (RegisterRes.created (registeredUser req newId hash),
           ⟨s.users ++ [registeredUser req newId hash], s.appointments⟩) ∧
    (req.role ≠ "" → (registeredUser req newId hash).role = req.role) ∧
    (req.role = "" → (registeredUser req newId hash).role = "client") := by
  refine ⟨by simp [registerUser, hfresh], ?_, ?_⟩
  · intro h
    unfold registeredUser
    simp [h]
  · intro h
    unfold registeredUser
    simp [h]

/-- C9 (witness): Mallory self-registers with role "dentist" on a fresh
store; the stored and returned record carries role "dentist". -/
theorem C9_witness :
    registerUser ⟨[], []⟩ (some evilReq) 7 sampleHash
        = (RegisterRes.created (registeredUser evilReq 7 sampleHash),
           ⟨[registeredUser evilReq 7 sampleHash], []⟩) ∧
    (registeredUser evilReq 7 sampleHash).role = "dentist" :=
  ⟨(registerUser_stores_supplied_role ⟨[], []⟩ evilReq 7 sampleHash rfl).1,
   (registerUser_stores_supplied_role ⟨[], []⟩ evilReq 7 sampleHash rfl).2.1 (by decide)⟩

end DentistApi
